import Mathlib

/-!
# Verification of the ileague-scrapper core algorithms

Shallow embedding of the core data-reconciliation and scoring algorithms of
the repository:

* `combine_player_data.py` — loading the scraped statistics pool
  (`load_player_stats`), the team-validated identity-resolution cascade
  (`find_player_stats`) and the merge (`combine_data`);
* `isuperleague-player-streamlit/viz/profile_finder.py` — weighted category
  scoring (`calculate_category_score`) and the per-player contribution
  breakdown (`get_metric_contributions`);
* `player_scraper.py` — the secondary, team-less resolver
  (`match_player_by_fullname`).

Python strings are Lean `String`s (the inputs of interest are ASCII, so
`Char.toUpper` coincides with Python `str.upper`), Python dicts are
insertion-ordered association lists, and Python floats are modelled as exact
rationals `ℚ`.  The pandas primitives used by the code are embedded by their
documented semantics (`Series.rank(pct=True)` is the average percent-rank).
-/

namespace ILeague

/-! ## Python string primitives -/

/-- The whitespace class of Python's regex `\s` (ASCII range). -/
def isPySpace (c : Char) : Bool :=
  c = ' ' || c = '\t' || c = '\n' || c = '\x0d' || c = '\x0b' || c = '\x0c'

/-- Maximal runs of non-whitespace characters (splitting on `\s+` and
dropping empty fragments, which is what `re.sub(r'\s+', ' ', s.strip())`
keeps). -/
def wordRuns (l : List Char) : List (List Char) :=
  (l.splitOnP isPySpace).filter (· ≠ [])

/-- `re.sub(r'\s+', ' ', s.strip())`: trim outer whitespace and collapse
every inner whitespace run to a single space. -/
def collapseSpaces (s : String) : String :=
  String.mk (List.intercalate [' '] (wordRuns s.toList))

/-- Python `s.upper()` (ASCII). -/
def pyUpper (s : String) : String :=
  String.mk (s.toList.map Char.toUpper)

/-- `PlayerDataCombiner.clean_name` (combine_player_data.py:91-97):
collapse whitespace, trim, upper-case; falsy input gives `""`. -/
def clean_name (name : String) : String :=
  if name = "" then ""
  else String.mk (List.intercalate [' '] (wordRuns (name.toList.map Char.toUpper)))

/-- `a` is a prefix-run of `b` (helper for Python's `in` on strings). -/
def leadsWith : List Char → List Char → Bool
  | [], _ => true
  | _ :: _, [] => false
  | a :: as, b :: bs => a = b && leadsWith as bs

/-- Python `n in h` for strings: `n` occurs contiguously in `h`
(the empty string occurs in everything). -/
def occursIn (n : List Char) : List Char → Bool
  | [] => leadsWith n []
  | c :: rest => leadsWith n (c :: rest) || occursIn n rest

/-- Python `n in h` on `String`s. -/
def strIn (n h : String) : Bool := occursIn n.toList h.toList

/-- Remove `pat` as a leading run of `l`, returning the remainder. -/
def dropRun : List Char → List Char → Option (List Char)
  | [], l => some l
  | _ :: _, [] => none
  | a :: as, b :: bs => if a = b then dropRun as bs else none

/-- Python `s.replace(pat, rep)` on char lists: replace non-overlapping
occurrences left to right.  Structural in a fuel argument so that it
computes; `fuel ≥ l.length` makes the fuel-0 branch unreachable. -/
def replaceFuel (pat rep : List Char) : Nat → List Char → List Char
  | _, [] => []
  | 0, l => l
  | Nat.succ fuel, c :: rest =>
    match dropRun pat (c :: rest) with
    | some remainder =>
      if pat.isEmpty then c :: rest
      else rep ++ replaceFuel pat rep fuel remainder
    | none => c :: replaceFuel pat rep fuel rest

/-- Python `s.replace(pat, rep)` (used by `clean_text` with the fixed
non-empty patterns `&nbsp;` and `&amp;`). -/
def pyReplace (s pat rep : String) : String :=
  String.mk (replaceFuel pat.toList rep.toList s.toList.length s.toList)

/-! ## Python dicts as insertion-ordered association lists -/

/-- A CSV row as produced by `csv.DictReader`: field name → cell text. -/
def CsvRow := List (String × String)
deriving DecidableEq, Inhabited

/-- First binding of a key, Python `d[k]` / `k in d`. -/
def alookup {β : Type} (l : List (String × β)) (k : String) : Option β :=
  match l.find? (fun p => p.1 = k) with
  | some p => some p.2
  | none => none

/-- Python `row.get(col, default)`. -/
def getCell (r : CsvRow) (k : String) (d : String) : String :=
  (alookup r k).getD d

/-- Python `d[k] = v` on an insertion-ordered dict: replace in place when
the key exists, otherwise append. -/
def dictSet {β : Type} (l : List (String × β)) (k : String) (v : β) :
    List (String × β) :=
  if l.any (fun p => p.1 = k) then
    l.map (fun p => if p.1 = k then (k, v) else p)
  else l ++ [(k, v)]

/-! ## combine_player_data.py — data model -/

/-- A roster entry of `teams_info.json` after `load_teams_info` flattened the
team structure into each player (combine_player_data.py:41-57,185-194).
Fields are the `player.get(...)` projections used by `combine_data`. -/
structure RosterPlayer where
  name : String
  fullName : String
  team_name : String
  negara : String
  usia : String
  posisi : String
  pictureUrl : String
  penampilan : String
deriving DecidableEq, Inhabited

/-- The fixed statistics column list (combine_player_data.py:27-33). -/
def stat_columns : List String :=
  ["Assist", "Ball Recovery", "Block", "Block Cross", "Clearance",
   "Create Chance", "Cross", "Dribble Success", "Foul", "Fouled",
   "Free Kick", "Goal", "Header Won", "Intercept", "Own Goal",
   "Passing", "Penalty Goal", "Saves", "Shoot Off Target",
   "Shoot On Target", "Tackle", "Yellow Card"]

/-- The body of the `load_player_stats` loop (combine_player_data.py:76-79):
store the row under its `Player Name` cell, skipping rows whose name is
empty (falsy). -/
def loadStep (d : List (String × CsvRow)) (row : CsvRow) :
    List (String × CsvRow) :=
  let nm := getCell row "Player Name" ""
  if nm ≠ "" then dictSet d nm row else d

/-- `load_player_stats` (combine_player_data.py:69-82): fold the CSV rows
into a dict keyed by the `Player Name` cell; assignment replaces any
earlier row with the same name. -/
def load_player_stats (rows : List CsvRow) : List (String × CsvRow) :=
  rows.foldl loadStep []

/-! ## combine_player_data.py — identity resolution -/

/-- Strategies 1-2 of `find_player_stats` (combine_player_data.py:105-115):
an exact dict lookup followed by the verbatim team check. -/
def tryExact (pool : List (String × CsvRow)) (key team : String) :
    Option CsvRow :=
  match alookup pool key with
  | some s => if getCell s "Team" "" = team then some s else none
  | none => none

/-- Strategy 3 of `find_player_stats` (combine_player_data.py:117-129): scan
the pool in order; for each candidate whose team matches verbatim, compare
the cleaned candidate name first with the cleaned full name, then with the
cleaned display name; return on the first hit. -/
def cleanScan (cf cn team : String) :
    List (String × CsvRow) → Option (CsvRow × String)
  | [] => none
  | (k, s) :: rest =>
    if getCell s "Team" "" = team then
      if clean_name k = cf then some (s, "clean_fullname_team")
      else if clean_name k = cn then some (s, "clean_name_team")
      else cleanScan cf cn team rest
    else cleanScan cf cn team rest

/-- `find_player_stats` (combine_player_data.py:99-162): the team-validated
matching cascade.  Strategies 4-5 are commented out in the source and are
therefore absent here as well. -/
def find_player_stats (p : RosterPlayer) (pool : List (String × CsvRow)) :
    Option CsvRow × String :=
  match tryExact pool p.fullName p.team_name with
  | some s => (some s, "exact_fullname_team")
  | none =>
    match tryExact pool p.name p.team_name with
    | some s => (some s, "exact_name_team")
    | none =>
      match cleanScan (clean_name p.fullName) (clean_name p.name)
          p.team_name pool with
      | some (s, t) => (some s, t)
      | none => (none, "no_match")

/-! ## combine_player_data.py — the merge -/

/-- A statistic cell of the merged record: `combine_data` writes either the
Python int `0` or the verbatim cell string (combine_player_data.py:226-231). -/
inductive Cell where
  | intVal (n : ℤ)
  | strVal (s : String)
deriving DecidableEq, Inhabited

/-- One merged output record (combine_player_data.py:214-233): the eight
fixed info fields plus one `Cell` per statistics column. -/
structure OutRow where
  name : String
  playerName : String
  team : String
  country : String
  age : String
  position : String
  pictureUrl : String
  appearances : String
  stats : List (String × Cell)
deriving DecidableEq, Inhabited

/-- The statistics dict actually used to fill a player's row: the matched
row when the match is truthy and the tier is not `no_match`, else the
`create_empty_stats` path, represented by `none`
(combine_player_data.py:196-211). -/
def statsForRow (p : RosterPlayer) (pool : List (String × CsvRow)) :
    Option CsvRow :=
  match find_player_stats p pool with
  | (some s, tier) => if s ≠ [] ∧ tier ≠ "no_match" then some s else none
  | (none, _) => none

/-- One statistic cell (combine_player_data.py:226-231): on the unmatched
path `create_empty_stats` yields the int `0` for every column; on the
matched path `stats.get(col, '')` yields the cell text, and only `''` (or a
missing key) is coerced to `0` — any non-empty text is stored verbatim. -/
def mkCell (s? : Option CsvRow) (col : String) : Cell :=
  match s? with
  | none => Cell.intVal 0
  | some s =>
    let v := getCell s col ""
    if v = "" then Cell.intVal 0 else Cell.strVal v

/-- The merged record of one roster player (combine_player_data.py:185-233). -/
def mkOutRow (pool : List (String × CsvRow)) (p : RosterPlayer) : OutRow :=
  let s? := statsForRow p pool
  { name := p.name
    playerName := p.fullName
    team := p.team_name
    country := p.negara
    age := p.usia
    position := p.posisi
    pictureUrl := p.pictureUrl
    appearances := p.penampilan
    stats := stat_columns.map (fun col => (col, mkCell s? col)) }

/-- The advisory matching summary accumulated by the `combine_data` loop
(combine_player_data.py:179-240): `"team" in match_type` is Python substring
containment on the tier string. -/
structure MatchSummary where
  total : ℕ
  matched : ℕ
  team_validated : ℕ
  non_team : ℕ
  unmatched : ℕ
deriving DecidableEq, Inhabited

/-- Whether the `combine_data` loop counts this player as matched
(combine_player_data.py:200). -/
def isMatched (p : RosterPlayer) (pool : List (String × CsvRow)) : Bool :=
  (statsForRow p pool).isSome

/-- Matched with a tier whose label contains `"team"`
(combine_player_data.py:202). -/
def isTeamValidated (p : RosterPlayer) (pool : List (String × CsvRow)) : Bool :=
  isMatched p pool && strIn "team" (find_player_stats p pool).2

/-- `combine_data` (combine_player_data.py:171-253): `none` when either
input container is falsy (line 173), otherwise one merged record per roster
player in roster order, together with the match summary. -/
def combine_data (players : List RosterPlayer)
    (pool : List (String × CsvRow)) :
    Option (List OutRow × MatchSummary) :=
  if players = [] ∨ pool = [] then none
  else
    some (players.map (mkOutRow pool),
      { total := players.length
        matched := players.countP (fun p => isMatched p pool)
        team_validated := players.countP (fun p => isTeamValidated p pool)
        non_team := players.countP
          (fun p => isMatched p pool && !strIn "team" (find_player_stats p pool).2)
        unmatched := players.countP (fun p => !isMatched p pool) })

/-! ## profile_finder.py — data model

A pandas DataFrame of players is a column list together with one row per
player; a row assigns a rational to each metric column (only columns in
`columns` are ever read, guarded by `metric in df.columns` in the source). -/

/-- A player row: metric name → value (floats modelled as `ℚ`). -/
def PRow := List (String × ℚ)
deriving DecidableEq, Inhabited

/-- `df.loc[idx, metric]` on a row. -/
def rowVal (r : PRow) (m : String) : ℚ := (alookup r m).getD 0

/-- The player DataFrame handed to `ProfileScorer`. -/
structure DataFrame where
  columns : List String
  rows : List PRow
deriving DecidableEq, Inhabited

/-- The column `df[metric]` as a list of values. -/
def colValues (df : DataFrame) (m : String) : List ℚ :=
  df.rows.map (fun r => rowVal r m)

/-- `Series.min()` of a column (populations are non-empty wherever the code
reads this; `[]` falls back to `0`). -/
def listMin : List ℚ → ℚ
  | [] => 0
  | x :: xs => xs.foldl min x

/-- `Series.max()` of a column. -/
def listMax : List ℚ → ℚ
  | [] => 0
  | x :: xs => xs.foldl max x

/-- `ProfileScorer.negative_metrics` (profile_finder.py:47). -/
def negative_metrics : List String :=
  ["Own Goal", "Yellow Card", "Foul", "Shoot Off Target"]

/-- The min-max normalization of one value against the population bounds of
its column (profile_finder.py:101-109): all-equal columns score `50.0`;
negative-polarity metrics invert the scale. -/
def normalizeValue (neg : Bool) (lo hi v : ℚ) : ℚ :=
  if hi = lo then 50
  else if neg then 100 - (v - lo) / (hi - lo) * 100
  else (v - lo) / (hi - lo) * 100

/-- The normalized series of one metric column (profile_finder.py:95-109):
the `MetricNormalizer` of the specification, applied to `df[metric]` with
the population min/max of that very column. -/
def normalizeMetric (neg : Bool) (values : List ℚ) : List ℚ :=
  values.map (normalizeValue neg (listMin values) (listMax values))

/-- Python `dict.update` on insertion-ordered dicts: existing keys keep
their position and take the new value, new keys are appended in order
(profile_finder.py:72-74). -/
def dictUpdate (w add : List (String × ℚ)) : List (String × ℚ) :=
  (w.map (fun p =>
    match alookup add p.1 with
    | some v => (p.1, v)
    | none => p))
  ++ add.filter (fun p => alookup w p.1 = none)

/-- Step 1 of `calculate_category_score` (profile_finder.py:77-78): keep
only weights whose metric is a DataFrame column. -/
def availableWeights (df : DataFrame) (w : List (String × ℚ)) :
    List (String × ℚ) :=
  w.filter (fun p => p.1 ∈ df.columns)

/-- `sum(d.values())`. -/
def sumVals (w : List (String × ℚ)) : ℚ := (w.map Prod.snd).sum

/-- Step 2 of `calculate_category_score` (profile_finder.py:85-89): divide
by the total when it is positive, otherwise leave the weights as they are. -/
def normWeights (aw : List (String × ℚ)) : List (String × ℚ) :=
  let t := sumVals aw
  if 0 < t then aw.map (fun p => (p.1, p.2 / t)) else aw

/-- The weighted-score accumulation loop (profile_finder.py:93-112) applied
to one player row: sum over the normalized weights, guarded as in the
source by `metric in df.columns`, of normalized value times weight. -/
def rowScore (df : DataFrame) (nw : List (String × ℚ)) (r : PRow) : ℚ :=
  (nw.map (fun p =>
    if p.1 ∈ df.columns then
      normalizeValue (p.1 ∈ negative_metrics) (listMin (colValues df p.1))
        (listMax (colValues df p.1)) (rowVal r p.1) * p.2
    else 0)).sum

/-- `Series.rank(pct=True) * 100` (profile_finder.py:118-120): pandas
average percent-rank — the average rank of a value `s` in the score column
is `#{x < s} + (#{x = s} + 1) / 2`, and the percentile is that divided by
the population size, times 100. -/
def pandasPctRank (scores : List ℚ) : List ℚ :=
  scores.map (fun s =>
    (((scores.filter (fun x => x < s)).length : ℚ)
      + (((scores.filter (fun x => x = s)).length : ℚ) + 1) / 2)
    / (scores.length : ℚ) * 100)

/-- Failure outcomes of `calculate_category_score`: the bare
`return pd.DataFrame()` of profile_finder.py:69 (empty population) and of
profile_finder.py:80-82, the latter after the `No valid metrics found`
warning — the `NoScorableMetrics` report of the specification. -/
inductive ScoreError where
  | emptyPopulation
  | noScorableMetrics
deriving DecidableEq, Inhabited

/-- The successful output of `calculate_category_score`: per-player (in
input order) composite scores and percentiles, plus the normalized weights
the method returns alongside the result table. -/
structure ScoreResult where
  scores : List ℚ
  percentiles : List ℚ
  usedWeights : List (String × ℚ)
deriving DecidableEq, Inhabited

/-- `ProfileScorer.calculate_category_score` (profile_finder.py:54-129):
combine preset and additional weights, filter to present metrics, normalize
the weights, and produce each player's weighted score and percentile. -/
def calculate_category_score (df : DataFrame)
    (weights additional : List (String × ℚ)) :
    Except ScoreError ScoreResult :=
  if df.rows.length = 0 then Except.error ScoreError.emptyPopulation
  else
    let aw := availableWeights df (dictUpdate weights additional)
    if aw = [] then Except.error ScoreError.noScorableMetrics
    else
      let nw := normWeights aw
      let scores := df.rows.map (rowScore df nw)
      Except.ok { scores := scores
                  percentiles := pandasPctRank scores
                  usedWeights := nw }

/-- One entry of the contribution breakdown (profile_finder.py:165-170). -/
structure Contribution where
  raw_value : ℚ
  normalized_score : ℚ
  weight : ℚ
  weighted_contribution : ℚ
deriving DecidableEq, Inhabited

/-- The body of the `get_metric_contributions` loop
(profile_finder.py:150-170): one breakdown entry per weighted metric,
guarded as in the source by `metric in df.columns`. -/
def contribEntry (df : DataFrame) (r : PRow) (p : String × ℚ) :
    Option (String × Contribution) :=
  if p.1 ∈ df.columns then
    let v := normalizeValue (p.1 ∈ negative_metrics)
      (listMin (colValues df p.1)) (listMax (colValues df p.1)) (rowVal r p.1)
    some (p.1, { raw_value := rowVal r p.1
                 normalized_score := v
                 weight := p.2
                 weighted_contribution := v * p.2 })
  else none

/-- `ProfileScorer.get_metric_contributions` (profile_finder.py:131-172):
recompute the filtered and normalized weights and, for the one player row,
the same population-baseline normalization, exposing each term. -/
def get_metric_contributions (df : DataFrame)
    (weights additional : List (String × ℚ)) (r : PRow) :
    List (String × Contribution) :=
  (normWeights (availableWeights df (dictUpdate weights additional))).filterMap
    (contribEntry df r)

/-! ## player_scraper.py — the team-less resolver -/

/-- `clean_text` (player_scraper.py:430-438): trim and collapse whitespace,
then replace the two HTML entities. -/
def clean_text (text : String) : String :=
  if text = "" then ""
  else pyReplace (pyReplace (collapseSpaces text) "&nbsp;" " ") "&amp;" "&"

/-- The pass-3 containment test of `match_player_by_fullname`
(player_scraper.py:486-490): the scraped name and the upper-cased fullName
stand in substring containment in either direction. -/
def fullNameContainment (sc : String) (p : RosterPlayer) : Bool :=
  strIn sc (pyUpper p.fullName) || strIn (pyUpper p.fullName) sc

/-- `match_player_by_fullname` (player_scraper.py:472-498): four scans over
the roster in order — exact fullName, exact name, fullName containment in
either direction, name containment in either direction. -/
def match_player_by_fullname (scraped : String)
    (all_players : List RosterPlayer) : Option RosterPlayer :=
  let sc := pyUpper (clean_text scraped)
  match all_players.find? (fun p => pyUpper p.fullName = sc) with
  | some p => some p
  | none =>
    match all_players.find? (fun p => pyUpper p.name = sc) with
    | some p => some p
    | none =>
      match all_players.find? (fullNameContainment sc) with
      | some p => some p
      | none =>
        all_players.find? (fun p =>
          strIn sc (pyUpper p.name) || strIn (pyUpper p.name) sc)

/-! ## Concrete test fixtures

Small concrete populations used to instantiate the theorems below; they are
the scenarios named by the specification's testable properties. -/

/-- Three players whose `Goal` column reads 1, 2, 3. -/
def dfGoals : DataFrame :=
  { columns := ["Player Name", "Goal"]
    rows := [[("Player Name", 0), ("Goal", 1)],
             [("Player Name", 0), ("Goal", 2)],
             [("Player Name", 0), ("Goal", 3)]] }

/-- Percent-rank as the specification words it: the fraction of the
population with a strictly lower score, expressed 0-100.  This definition
follows the spec's sentence (spec.md §4.5 step 6), not the source, and
exists only to be compared against the source-derived `pandasPctRank`. -/
def specStrictBelowPct (scores : List ℚ) : List ℚ :=
  scores.map (fun s =>
    ((scores.filter (fun x => x < s)).length : ℚ) / (scores.length : ℚ) * 100)

/-- The C4 target: fullName `JOHN SMITH` on team `FC ALPHA`. -/
def c4tgt : RosterPlayer := ⟨"", "JOHN SMITH", "FC ALPHA", "", "", "", "", ""⟩

/-- C4 candidate 1: name `John   Smith` (three inner spaces), team matches. -/
def c4row1 : CsvRow :=
  [("Player Name", "John   Smith"), ("Team", "FC ALPHA"), ("Goal", "5")]

/-- C4 candidate 2: name equals the target's fullName, wrong team. -/
def c4row2 : CsvRow :=
  [("Player Name", "JOHN SMITH"), ("Team", "FC BETA"), ("Goal", "9")]

/-- The C4 candidate pool. -/
def c4pool : List (String × CsvRow) :=
  [("John   Smith", c4row1), ("JOHN SMITH", c4row2)]

/-- The C3 target: display name matches nothing, fullName `John Smith`. -/
def c3tgt : RosterPlayer := ⟨"ZZ", "John Smith", "T", "", "", "", "", ""⟩

/-- A C3 candidate whose scraped name cleans to `JOHN SMITH` (two spaces). -/
def c3rowA : CsvRow :=
  [("Player Name", "John  Smith"), ("Team", "T"), ("Goal", "1")]

/-- Another C3 candidate cleaning to the same name (three spaces). -/
def c3rowB : CsvRow :=
  [("Player Name", "John   Smith"), ("Team", "T"), ("Goal", "2")]

/-- The C3 pool in one enumeration order. -/
def c3poolAB : List (String × CsvRow) :=
  [("John  Smith", c3rowA), ("John   Smith", c3rowB)]

/-- The same C3 pool, permuted. -/
def c3poolBA : List (String × CsvRow) :=
  [("John   Smith", c3rowB), ("John  Smith", c3rowA)]

/-- A roster player matched exactly by the C2 statistics pool. -/
def c2player : RosterPlayer := ⟨"Zed", "ZED", "T", "", "", "", "", ""⟩

/-- A statistics row whose `Goal` cell is non-numeric noise. -/
def c2row : CsvRow := [("Player Name", "ZED"), ("Team", "T"), ("Goal", "N/A")]

/-- The C2 statistics pool. -/
def c2pool : List (String × CsvRow) := [("ZED", c2row)]

/-- A statistics pool matching no roster player (wrong team and name). -/
def c2poolMiss : List (String × CsvRow) :=
  [("Quux", [("Player Name", "Quux"), ("Team", "Elsewhere"), ("Goal", "4")])]

/-- A statistics CSV row for player `A` on team `T1`. -/
def c9row1 : CsvRow := [("Player Name", "A"), ("Team", "T1")]

/-- A later statistics CSV row for a same-named player `A` on team `T2`. -/
def c9row2 : CsvRow := [("Player Name", "A"), ("Team", "T2")]

/-- A two-candidate pool resolved by the exact fullName strategy. -/
def c3exPool1 : List (String × CsvRow) := c2pool ++ c2poolMiss

/-- The same exact-strategy pool, permuted. -/
def c3exPool2 : List (String × CsvRow) := c2poolMiss ++ c2pool

/-- C10 roster player whose fullName `CA` stands in containment with the
scraped name `CARL`. -/
def c10px : RosterPlayer := ⟨"X", "CA", "TT", "", "", "", "", ""⟩

/-- C10 roster player with an empty fullName. -/
def c10py : RosterPlayer := ⟨"Y", "", "TT", "", "", "", "", ""⟩

/-! ## Helper lemmas -/

theorem getD_map_of_lt {α β : Type} (f : α → β) (l : List α) (i : ℕ)
    (d : β) (d0 : α) (hi : i < l.length) :
    (l.map f).getD i d = f (l.getD i d0) := by
  simp [List.getD, List.getElem?_map, List.getElem?_eq_getElem, hi]

theorem sumVals_map_div (l : List (String × ℚ)) (t : ℚ) :
    sumVals (l.map (fun p => (p.1, p.2 / t))) = sumVals l / t := by
  induction l with
  | nil => simp [sumVals]
  | cons x xs ih =>
    simp only [sumVals, List.map_cons, List.sum_cons] at *
    rw [ih, div_add_div_same]

theorem all_zero_of_sum_zero_nonneg (l : List ℚ) (h0 : l.sum = 0)
    (hn : ∀ x ∈ l, 0 ≤ x) : ∀ x ∈ l, x = 0 := by
  induction l with
  | nil => simp
  | cons a l ih =>
    have ha : 0 ≤ a := hn a (List.mem_cons_self a l)
    have hl : 0 ≤ l.sum :=
      List.sum_nonneg (fun x hx => hn x (List.mem_cons_of_mem a hx))
    rw [List.sum_cons] at h0
    have ha0 : a = 0 := by linarith
    have hl0 : l.sum = 0 := by linarith
    intro x hx
    rcases List.mem_cons.mp hx with rfl | hx
    · exact ha0
    · exact ih hl0 (fun y hy => hn y (List.mem_cons_of_mem a hy)) x hx

theorem tryExact_team {pool : List (String × CsvRow)} {key team : String}
    {s : CsvRow} (h : tryExact pool key team = some s) :
    getCell s "Team" "" = team := by
  unfold tryExact at h
  cases halo : alookup pool key with
  | some s1 =>
    rw [halo] at h
    simp only [] at h
    by_cases ht : getCell s1 "Team" "" = team
    · rw [if_pos ht] at h
      cases h
      exact ht
    · rw [if_neg ht] at h
      exact absurd h (by simp)
  | none =>
    rw [halo] at h
    exact absurd h (by simp)

theorem cleanScan_team {cf cn team : String} {pool : List (String × CsvRow)}
    {s : CsvRow} {t : String} (h : cleanScan cf cn team pool = some (s, t)) :
    getCell s "Team" "" = team := by
  induction pool with
  | nil => exact absurd h (by simp [cleanScan])
  | cons x rest ih =>
    obtain ⟨k, row⟩ := x
    unfold cleanScan at h
    by_cases hteam : getCell row "Team" "" = team
    · rw [if_pos hteam] at h
      by_cases h1 : clean_name k = cf
      · rw [if_pos h1] at h
        cases h
        exact hteam
      · rw [if_neg h1] at h
        by_cases h2 : clean_name k = cn
        · rw [if_pos h2] at h
          cases h
          exact hteam
        · rw [if_neg h2] at h
          exact ih h
    · rw [if_neg hteam] at h
      exact ih h

theorem mem_columns_of_mem_availableWeights {df : DataFrame}
    {W : List (String × ℚ)} {p : String × ℚ}
    (hp : p ∈ availableWeights df W) : p.1 ∈ df.columns := by
  unfold availableWeights at hp
  have := (List.mem_filter.mp hp).2
  simpa using this

theorem mem_columns_of_mem_normWeights {df : DataFrame}
    {W : List (String × ℚ)} {p : String × ℚ}
    (hp : p ∈ normWeights (availableWeights df W)) : p.1 ∈ df.columns := by
  unfold normWeights at hp
  simp only [] at hp
  split at hp
  · simp only [List.mem_map] at hp
    obtain ⟨q, hq, hpq⟩ := hp
    have hfst : p.1 = q.1 := by rw [← hpq]
    rw [hfst]
    exact mem_columns_of_mem_availableWeights hq
  · exact mem_columns_of_mem_availableWeights hp

theorem contribEntry_of_mem_col {df : DataFrame} {r : PRow} {p : String × ℚ}
    (hc : p.1 ∈ df.columns) :
    contribEntry df r p
      = some (p.1,
          { raw_value := rowVal r p.1
            normalized_score := normalizeValue (p.1 ∈ negative_metrics)
              (listMin (colValues df p.1)) (listMax (colValues df p.1))
              (rowVal r p.1)
            weight := p.2
            weighted_contribution := normalizeValue (p.1 ∈ negative_metrics)
              (listMin (colValues df p.1)) (listMax (colValues df p.1))
              (rowVal r p.1) * p.2 }) := by
  unfold contribEntry
  rw [if_pos hc]

theorem contribs_keys_weights (df : DataFrame) (r : PRow) :
    ∀ (nw : List (String × ℚ)), (∀ p ∈ nw, p.1 ∈ df.columns) →
    (nw.filterMap (contribEntry df r)).map (fun q => (q.1, q.2.weight)) = nw := by
  intro nw
  induction nw with
  | nil => intro _; rfl
  | cons p rest ih =>
    intro hcols
    have hc : p.1 ∈ df.columns := hcols p (List.mem_cons_self p rest)
    rw [List.filterMap_cons, contribEntry_of_mem_col hc]
    simp only [List.map_cons]
    rw [ih (fun q hq => hcols q (List.mem_cons_of_mem p hq))]

theorem contribs_sum_eq_rowScore (df : DataFrame) (r : PRow) :
    ∀ (nw : List (String × ℚ)), (∀ p ∈ nw, p.1 ∈ df.columns) →
    ((nw.filterMap (contribEntry df r)).map
        (fun q => q.2.weighted_contribution)).sum = rowScore df nw r := by
  intro nw
  induction nw with
  | nil => intro _; rfl
  | cons p rest ih =>
    intro hcols
    have hc : p.1 ∈ df.columns := hcols p (List.mem_cons_self p rest)
    rw [List.filterMap_cons, contribEntry_of_mem_col hc]
    simp only [List.map_cons, List.sum_cons]
    rw [ih (fun q hq => hcols q (List.mem_cons_of_mem p hq))]
    unfold rowScore
    simp only [List.map_cons, List.sum_cons]
    rw [if_pos hc]

theorem calc_ok_parts {df : DataFrame} {w add : List (String × ℚ)}
    {res : ScoreResult} (h : calculate_category_score df w add = Except.ok res) :
    res.scores = df.rows.map
        (rowScore df (normWeights (availableWeights df (dictUpdate w add))))
    ∧ res.percentiles = pandasPctRank res.scores
    ∧ res.usedWeights = normWeights (availableWeights df (dictUpdate w add)) := by
  unfold calculate_category_score at h
  simp only [] at h
  split at h
  · exact absurd h (by simp)
  · split at h
    · exact absurd h (by simp)
    · cases h
      exact ⟨rfl, rfl, rfl⟩

theorem alookup_cons {β : Type} (c : String) (v : β) (l : List (String × β))
    (k : String) :
    alookup ((c, v) :: l) k = if c = k then some v else alookup l k := by
  unfold alookup
  rw [List.find?_cons]
  by_cases hc : c = k
  · simp [hc]
  · simp [hc]

theorem alookup_map_self {β : Type} (f : String → β) :
    ∀ (cols : List String) (col : String), col ∈ cols →
    alookup (cols.map (fun c => (c, f c))) col = some (f col) := by
  intro cols
  induction cols with
  | nil => intro col h; exact absurd h (List.not_mem_nil col)
  | cons c rest ih =>
    intro col h
    rw [List.map_cons, alookup_cons]
    by_cases hc : c = col
    · rw [if_pos hc, hc]
    · rw [if_neg hc]
      rcases List.mem_cons.mp h with h1 | h2
      · exact absurd h1.symm hc
      · exact ih col h2

theorem statsForRow_of_unmatched {p : RosterPlayer}
    {pool : List (String × CsvRow)}
    (h : (find_player_stats p pool).1 = none) : statsForRow p pool = none := by
  unfold statsForRow
  rcases hfind : find_player_stats p pool with ⟨s?, t⟩
  rw [hfind] at h
  simp only [] at h
  subst h
  rfl

theorem alookup_perm {β : Type} {l1 l2 : List (String × β)}
    (hperm : l1.Perm l2) :
    (l1.map Prod.fst).Nodup → ∀ k, alookup l1 k = alookup l2 k := by
  induction hperm with
  | nil => intro _ k; rfl
  | cons x t ih =>
    intro hnd k
    obtain ⟨c, v⟩ := x
    rw [alookup_cons, alookup_cons]
    by_cases hc : c = k
    · rw [if_pos hc, if_pos hc]
    · rw [if_neg hc, if_neg hc]
      refine ih ?_ k
      have h' := hnd
      simp only [List.map_cons, List.nodup_cons] at h'
      exact h'.2
  | swap x y t =>
    intro hnd k
    obtain ⟨c1, v1⟩ := x
    obtain ⟨c2, v2⟩ := y
    have hne : c2 ≠ c1 := by
      have h' := hnd
      simp only [List.map_cons, List.nodup_cons, List.mem_cons] at h'
      intro hEq
      exact h'.1 (Or.inl hEq)
    rw [alookup_cons, alookup_cons, alookup_cons, alookup_cons]
    by_cases h2 : c2 = k
    · have h1 : ¬ c1 = k := fun hc1 => hne (h2.trans hc1.symm)
      rw [if_pos h2, if_neg h1, if_pos h2]
    · by_cases h1 : c1 = k
      · rw [if_neg h2, if_pos h1, if_pos h1]
      · rw [if_neg h2, if_neg h1, if_neg h1, if_neg h2]
  | trans h12 h23 ih12 ih23 =>
    intro hnd k
    rw [ih12 hnd k]
    exact ih23 (((h12.map Prod.fst).nodup_iff).mp hnd) k

theorem cleanScan_tier {cf cn team : String} {pool : List (String × CsvRow)}
    {s : CsvRow} {t : String} (h : cleanScan cf cn team pool = some (s, t)) :
    t = "clean_fullname_team" ∨ t = "clean_name_team" := by
  induction pool with
  | nil => exact absurd h (by simp [cleanScan])
  | cons x rest ih =>
    obtain ⟨k, row⟩ := x
    unfold cleanScan at h
    by_cases hteam : getCell row "Team" "" = team
    · rw [if_pos hteam] at h
      by_cases h1 : clean_name k = cf
      · rw [if_pos h1] at h
        cases h
        exact Or.inl rfl
      · rw [if_neg h1] at h
        by_cases h2 : clean_name k = cn
        · rw [if_pos h2] at h
          cases h
          exact Or.inr rfl
        · rw [if_neg h2] at h
          exact ih h
    · rw [if_neg hteam] at h
      exact ih h

theorem optOr_some {α : Type} (a : α) (x : Option α) :
    Option.or (some a) x = some a := rfl

theorem optOr_none {α : Type} (x : Option α) : Option.or none x = x := rfl

theorem optOr_assoc {α : Type} (x y z : Option α) :
    Option.or (Option.or x y) z = Option.or x (Option.or y z) := by
  cases x <;> rfl

theorem getLast?_cons_or {α : Type} (l : List α) (a : α) :
    (a :: l).getLast? = Option.or l.getLast? (some a) := by
  cases l with
  | nil => rfl
  | cons b t =>
    rw [List.getLast?_cons_cons]
    have hsome : ((b :: t).getLast?).isSome := by
      rw [List.getLast?_isSome]
      simp
    obtain ⟨y, hy⟩ := Option.isSome_iff_exists.mp hsome
    rw [hy]
    rfl

theorem alookup_append {β : Type} (l1 l2 : List (String × β)) (k : String) :
    alookup (l1 ++ l2) k = Option.or (alookup l1 k) (alookup l2 k) := by
  induction l1 with
  | nil => rfl
  | cons p rest ih =>
    obtain ⟨c, v⟩ := p
    rw [List.cons_append, alookup_cons, alookup_cons]
    by_cases hc : c = k
    · rw [if_pos hc, if_pos hc, optOr_some]
    · rw [if_neg hc, if_neg hc, ih]

theorem alookup_eq_none_of_any_false {β : Type} {l : List (String × β)}
    {k : String} (h : l.any (fun p => p.1 = k) = false) :
    alookup l k = none := by
  induction l with
  | nil => rfl
  | cons p rest ih =>
    rw [List.any_cons, Bool.or_eq_false_iff] at h
    obtain ⟨c, v⟩ := p
    rw [alookup_cons]
    have hc : ¬ c = k := by simpa using h.1
    rw [if_neg hc]
    exact ih h.2

theorem keys_map_replace {β : Type} (l : List (String × β)) (k : String)
    (v : β) :
    (l.map (fun p => if p.1 = k then (k, v) else p)).map Prod.fst
      = l.map Prod.fst := by
  rw [List.map_map]
  apply List.map_congr_left
  intro p _
  by_cases hp : p.1 = k
  · simp [hp]
  · simp [hp]

theorem nodup_keys_dictSet {β : Type} {l : List (String × β)} {k : String}
    {v : β} (hnd : (l.map Prod.fst).Nodup) :
    ((dictSet l k v).map Prod.fst).Nodup := by
  unfold dictSet
  split
  · rw [keys_map_replace]
    exact hnd
  · rename_i hany
    rw [List.map_append]
    rw [List.nodup_append]
    refine ⟨hnd, by simp, ?_⟩
    intro x hx hx1
    simp only [List.map_cons, List.map_nil, List.mem_singleton] at hx1
    subst hx1
    rw [Bool.not_eq_true, List.any_eq_false] at hany
    simp only [List.mem_map] at hx
    obtain ⟨p, hp, hpk⟩ := hx
    exact hany p hp (by simpa using hpk)

theorem alookup_dictSet_self {β : Type} (l : List (String × β)) (k : String)
    (v : β) : alookup (dictSet l k v) k = some v := by
  unfold dictSet
  split
  · rename_i hany
    induction l with
    | nil => exact absurd hany (by simp)
    | cons p rest ih =>
      rw [List.map_cons, List.any_cons] at *
      by_cases hp : p.1 = k
      · rw [if_pos hp, alookup_cons, if_pos rfl]
      · rw [if_neg hp, alookup_cons, if_neg hp]
        refine ih ?_
        have : (decide (p.1 = k)) = false := by simpa using hp
        rw [this, Bool.false_or] at hany
        exact hany
  · rename_i hany
    rw [alookup_append]
    have hfalse : l.any (fun p => p.1 = k) = false := by
      cases hb : l.any (fun p => p.1 = k) with
      | true => exact absurd hb hany
      | false => rfl
    have hnone : alookup l k = none := alookup_eq_none_of_any_false hfalse
    rw [hnone, optOr_none, alookup_cons, if_pos rfl]

theorem alookup_dictSet_ne {β : Type} (l : List (String × β)) {k k' : String}
    (v : β) (hk : k' ≠ k) :
    alookup (dictSet l k v) k' = alookup l k' := by
  unfold dictSet
  split
  · rename_i hany
    clear hany
    induction l with
    | nil => rfl
    | cons p rest ih =>
      rw [List.map_cons, alookup_cons]
      by_cases hp : p.1 = k
      · rw [if_pos hp, alookup_cons, if_neg (fun h => hk h.symm),
          if_neg (by rw [hp]; exact fun h => hk h.symm)]
        exact ih
      · rw [if_neg hp, alookup_cons]
        by_cases hp' : p.1 = k'
        · rw [if_pos hp', if_pos hp']
        · rw [if_neg hp', if_neg hp']
          exact ih
  · rw [alookup_append, alookup_cons, if_neg (fun h => hk h.symm)]
    show Option.or (alookup l k') (alookup [] k') = alookup l k'
    cases alookup l k' <;> rfl

theorem load_foldl_invariant (rows : List CsvRow) :
    ∀ (d : List (String × CsvRow)), (d.map Prod.fst).Nodup →
    ((rows.foldl loadStep d).map Prod.fst).Nodup
    ∧ ∀ name, name ≠ "" →
        alookup (rows.foldl loadStep d) name
          = Option.or
              ((rows.filter
                  (fun r => getCell r "Player Name" "" = name)).getLast?)
              (alookup d name) := by
  induction rows with
  | nil =>
    intro d hnd
    refine ⟨hnd, ?_⟩
    intro name _
    rw [List.foldl_nil, List.filter_nil]
    rfl
  | cons row rest ih =>
    intro d hnd
    rw [List.foldl_cons]
    by_cases hnm : getCell row "Player Name" "" = ""
    · have hstep : loadStep d row = d := by
        unfold loadStep
        simp [hnm]
      rw [hstep]
      obtain ⟨ihn, ihl⟩ := ih d hnd
      refine ⟨ihn, ?_⟩
      intro name hname
      rw [ihl name hname, List.filter_cons]
      have hne : (decide (getCell row "Player Name" "" = name)) = false := by
        simp only [decide_eq_false_iff_not]
        rw [hnm]
        exact fun h => hname h.symm
      rw [hne]
      simp only [Bool.false_eq_true, if_false]
    · have hstep : loadStep d row
          = dictSet d (getCell row "Player Name" "") row := by
        unfold loadStep
        simp [hnm]
      rw [hstep]
      have hnd' := nodup_keys_dictSet (k := getCell row "Player Name" "")
        (v := row) hnd
      obtain ⟨ihn, ihl⟩ := ih _ hnd'
      refine ⟨ihn, ?_⟩
      intro name hname
      rw [ihl name hname, List.filter_cons]
      by_cases heq : getCell row "Player Name" "" = name
      · have hd : (decide (getCell row "Player Name" "" = name)) = true := by
          simpa using heq
        rw [hd]
        simp only [if_true]
        rw [getLast?_cons_or, optOr_assoc, heq, alookup_dictSet_self,
          optOr_some]
      · have hd : (decide (getCell row "Player Name" "" = name)) = false := by
          simpa using heq
        rw [hd]
        simp only [Bool.false_eq_true, if_false]
        rw [alookup_dictSet_ne d row (fun h => heq h.symm)]

theorem strIn_empty (h : String) : strIn "" h = true := by
  unfold strIn
  show occursIn ([] : List Char) h.toList = true
  cases h.toList with
  | nil => rfl
  | cons c rest => rfl

/-! ## Claims -/

/-- C1 (counterexample): for the three-player population with Goal values
1, 2, 3 scored with weight 1.0 on Goal only, the code's percentiles are
`[100/3, 200/3, 100]`, whereas the strict-below percent-rank of the claim
gives `[0, 100/3, 200/3]` on the same scores, and the two disagree. -/
theorem c1_counterexample :
    (calculate_category_score dfGoals [("Goal", 1)] []).toOption.map
        ScoreResult.scores = some [0, 50, 100]
    ∧ (calculate_category_score dfGoals [("Goal", 1)] []).toOption.map
        ScoreResult.percentiles = some [100/3, 200/3, 100]
    ∧ specStrictBelowPct [0, 50, 100] = [0, 100/3, 200/3]
    ∧ ([100/3, 200/3, 100] : List ℚ) ≠ [0, 100/3, 200/3] := by
  refine ⟨?_, ?_, ?_, ?_⟩ <;> with_unfolding_all decide

/-- C1 (amended): for every scoring request the percentile assigned to each
player is the pandas average percent-rank of the composite scores: the
count of strictly lower scores plus half of `(ties + 1)`, divided by the
population size, times 100. -/
theorem c1_percentile_is_average_percent_rank
    (df : DataFrame) (w add : List (String × ℚ)) (res : ScoreResult)
    (h : calculate_category_score df w add = Except.ok res)
    (i : ℕ) (hi : i < res.scores.length) :
    res.percentiles.getD i 0
      = (((res.scores.filter (fun x => x < res.scores.getD i 0)).length : ℚ)
          + (((res.scores.filter (fun x => x = res.scores.getD i 0)).length : ℚ) + 1) / 2)
        / (res.scores.length : ℚ) * 100 := by
  have hres : res.percentiles = pandasPctRank res.scores := by
    unfold calculate_category_score at h
    simp only [] at h
    split at h
    · exact absurd h (by simp)
    · split at h
      · exact absurd h (by simp)
      · cases h
        rfl
  rw [hres]
  unfold pandasPctRank
  exact getD_map_of_lt _ _ _ _ 0 hi

/-- C1 (witness for the amended theorem): the lowest scorer of the
three-player Goal population receives percentile `100/3`, matching the
average percent-rank formula at index 0. -/
theorem c1_witness :
    ∃ res, calculate_category_score dfGoals [("Goal", 1)] [] = Except.ok res
      ∧ res.percentiles.getD 0 0
        = (((res.scores.filter (fun x => x < res.scores.getD 0 0)).length : ℚ)
            + (((res.scores.filter (fun x => x = res.scores.getD 0 0)).length : ℚ) + 1) / 2)
          / (res.scores.length : ℚ) * 100 := by
  obtain ⟨res, hres⟩ : ∃ res,
      calculate_category_score dfGoals [("Goal", 1)] [] = Except.ok res :=
    ⟨_, rfl⟩
  exact ⟨res, hres,
    c1_percentile_is_average_percent_rank dfGoals [("Goal", 1)] [] res hres 0
      (by rw [show res = ((calculate_category_score dfGoals [("Goal", 1)]
        []).toOption.getD default) by rw [hres]; rfl]; decide)⟩

/-- C5: when a metric column has no variance the normalizer returns exactly
50 for every element (in particular for a single-element list), and for a
negative-polarity metric `[0, 10]` normalizes to `[100, 0]`. -/
theorem c5_metric_normalizer (neg : Bool) (values : List ℚ)
    (h : listMin values = listMax values) :
    normalizeMetric neg values = values.map (fun _ => (50 : ℚ))
    ∧ normalizeMetric true [0, 10] = [100, 0]
    ∧ normalizeMetric false [7] = [50] := by
  refine ⟨?_, by with_unfolding_all decide, by with_unfolding_all decide⟩
  have h2 : listMax values = listMin values := h.symm
  unfold normalizeMetric
  rw [h2]
  apply List.map_congr_left
  intro v _
  simp [normalizeValue]

/-- C5 (witness): the all-equal population `[5, 5, 5]` has `min = max` and
normalizes to all-50s. -/
theorem c5_witness :
    listMin [(5 : ℚ), 5, 5] = listMax [(5 : ℚ), 5, 5]
    ∧ (normalizeMetric false [(5 : ℚ), 5, 5]
        = [(5 : ℚ), 5, 5].map (fun _ => (50 : ℚ))
      ∧ normalizeMetric true [0, 10] = [100, 0]
      ∧ normalizeMetric false [7] = [50]) :=
  ⟨by with_unfolding_all decide,
    c5_metric_normalizer false [(5 : ℚ), 5, 5] (by with_unfolding_all decide)⟩

/-- C7: when no caller-supplied weight (preset or additional) names a
column of the player DataFrame, the scorer fails that request with the
`NoScorableMetrics` outcome; the function returns this error value rather
than raising, so only this request is aborted. -/
theorem c7_no_scorable_metrics (df : DataFrame) (w add : List (String × ℚ))
    (hrows : df.rows ≠ [])
    (hmiss : ∀ q ∈ dictUpdate w add, q.1 ∉ df.columns) :
    calculate_category_score df w add
      = Except.error ScoreError.noScorableMetrics := by
  have hlen : ¬ df.rows.length = 0 := by
    simpa [List.length_eq_zero] using hrows
  have haw : availableWeights df (dictUpdate w add) = [] := by
    unfold availableWeights
    rw [List.filter_eq_nil_iff]
    intro a ha
    simpa using hmiss a ha
  unfold calculate_category_score
  simp [hlen, haw]

/-- C7 (witness): the weight set `{Tackle: 1}` names no column of the Goal
population, and the request fails with `NoScorableMetrics`. -/
theorem c7_witness :
    dfGoals.rows ≠ []
    ∧ (∀ q ∈ dictUpdate [("Tackle", (1 : ℚ))] [], q.1 ∉ dfGoals.columns)
    ∧ calculate_category_score dfGoals [("Tackle", 1)] []
        = Except.error ScoreError.noScorableMetrics :=
  ⟨by decide, by decide,
    c7_no_scorable_metrics dfGoals [("Tackle", 1)] [] (by decide) (by decide)⟩

/-- C4: the target `{fullName: JOHN SMITH, team: FC ALPHA}` resolves
against the two-candidate pool to the first candidate with tier
`clean_fullname_team`; in general, every record returned by the
team-validated cascade carries the target's team string verbatim, so a
candidate whose name matches exactly but whose team differs is never
returned. -/
theorem c4_team_validated_cascade :
    find_player_stats c4tgt c4pool = (some c4row1, "clean_fullname_team")
    ∧ ∀ (p : RosterPlayer) (pool : List (String × CsvRow)) (s : CsvRow)
        (t : String), find_player_stats p pool = (some s, t) →
          getCell s "Team" "" = p.team_name := by
  constructor
  · with_unfolding_all decide
  · intro p pool s t h
    unfold find_player_stats at h
    cases he1 : tryExact pool p.fullName p.team_name with
    | some s1 =>
      rw [he1] at h
      simp only [Prod.mk.injEq, Option.some.injEq] at h
      rw [← h.1]
      exact tryExact_team he1
    | none =>
      rw [he1] at h
      cases he2 : tryExact pool p.name p.team_name with
      | some s2 =>
        rw [he2] at h
        simp only [Prod.mk.injEq, Option.some.injEq] at h
        rw [← h.1]
        exact tryExact_team he2
      | none =>
        rw [he2] at h
        cases he3 : cleanScan (clean_name p.fullName) (clean_name p.name)
            p.team_name pool with
        | some st =>
          obtain ⟨s3, t3⟩ := st
          rw [he3] at h
          simp only [Prod.mk.injEq, Option.some.injEq] at h
          rw [← h.1]
          exact cleanScan_team he3
        | none =>
          rw [he3] at h
          exact absurd h (by simp)

/-- C4 (witness): the record resolved for the C4 target indeed carries the
target's team. -/
theorem c4_witness : getCell c4row1 "Team" "" = c4tgt.team_name :=
  c4_team_validated_cascade.2 c4tgt c4pool c4row1 "clean_fullname_team"
    c4_team_validated_cascade.1

/-- C6: when the filtered weights are non-empty the request succeeds; if
their total is positive each used weight is the input weight divided by the
total and the used weights sum to 1; if the total is 0 (with the
non-negative weights the sliders produce) the weights are left unmodified
and every player's composite score is 0. -/
theorem c6_weight_normalization (df : DataFrame) (w add : List (String × ℚ))
    (hrows : df.rows ≠ [])
    (hne : availableWeights df (dictUpdate w add) ≠ []) :
    ∃ res, calculate_category_score df w add = Except.ok res
      ∧ (0 < sumVals (availableWeights df (dictUpdate w add)) →
          res.usedWeights
            = (availableWeights df (dictUpdate w add)).map
                (fun p => (p.1,
                  p.2 / sumVals (availableWeights df (dictUpdate w add))))
          ∧ sumVals res.usedWeights = 1)
      ∧ (sumVals (availableWeights df (dictUpdate w add)) = 0 →
          (∀ q ∈ availableWeights df (dictUpdate w add), 0 ≤ q.2) →
          res.usedWeights = availableWeights df (dictUpdate w add)
          ∧ ∀ s ∈ res.scores, s = 0) := by
  have hlen : ¬ df.rows.length = 0 := by
    simpa [List.length_eq_zero] using hrows
  have hcalc : calculate_category_score df w add
      = Except.ok
          { scores := df.rows.map
              (rowScore df (normWeights (availableWeights df (dictUpdate w add))))
            percentiles := pandasPctRank (df.rows.map
              (rowScore df (normWeights (availableWeights df (dictUpdate w add)))))
            usedWeights := normWeights (availableWeights df (dictUpdate w add)) } := by
    unfold calculate_category_score
    simp only []
    rw [if_neg hlen, if_neg hne]
  refine ⟨_, hcalc, ?_, ?_⟩
  · intro ht
    constructor
    · show normWeights (availableWeights df (dictUpdate w add)) = _
      unfold normWeights
      rw [if_pos ht]
    · show sumVals (normWeights (availableWeights df (dictUpdate w add))) = 1
      unfold normWeights
      rw [if_pos ht, sumVals_map_div, div_self (ne_of_gt ht)]
  · intro ht hnn
    have hnotpos : ¬ 0 < sumVals (availableWeights df (dictUpdate w add)) := by
      rw [ht]
      exact lt_irrefl 0
    have hnw : normWeights (availableWeights df (dictUpdate w add))
        = availableWeights df (dictUpdate w add) := by
      unfold normWeights
      rw [if_neg hnotpos]
    refine ⟨hnw, ?_⟩
    intro s hs
    simp only [List.mem_map] at hs
    obtain ⟨r, _, hr⟩ := hs
    rw [← hr]
    have hall : ∀ q ∈ availableWeights df (dictUpdate w add), q.2 = 0 := by
      intro q hq
      exact all_zero_of_sum_zero_nonneg
        ((availableWeights df (dictUpdate w add)).map Prod.snd) ht
        (by
          intro x hx
          simp only [List.mem_map] at hx
          obtain ⟨q1, hq1, hx1⟩ := hx
          rw [← hx1]
          exact hnn q1 hq1)
        q.2 (List.mem_map_of_mem Prod.snd hq)
    unfold rowScore
    rw [hnw]
    apply List.sum_eq_zero
    intro x hx
    simp only [List.mem_map] at hx
    obtain ⟨q, hq, hxq⟩ := hx
    rw [← hxq]
    by_cases hc : q.1 ∈ df.columns
    · rw [if_pos hc, hall q hq, mul_zero]
    · rw [if_neg hc]

/-- C6 (witness): the Goal population with weight set `{Goal: 1}` has
non-empty filtered weights and positive total, and the theorem's
conclusions hold there. -/
theorem c6_witness :
    dfGoals.rows ≠ []
    ∧ availableWeights dfGoals (dictUpdate [("Goal", (1 : ℚ))] []) ≠ []
    ∧ ∃ res, calculate_category_score dfGoals [("Goal", 1)] [] = Except.ok res
      ∧ (0 < sumVals (availableWeights dfGoals (dictUpdate [("Goal", 1)] [])) →
          res.usedWeights
            = (availableWeights dfGoals (dictUpdate [("Goal", 1)] [])).map
                (fun p => (p.1,
                  p.2 / sumVals (availableWeights dfGoals (dictUpdate [("Goal", 1)] []))))
          ∧ sumVals res.usedWeights = 1)
      ∧ (sumVals (availableWeights dfGoals (dictUpdate [("Goal", 1)] [])) = 0 →
          (∀ q ∈ availableWeights dfGoals (dictUpdate [("Goal", 1)] []), 0 ≤ q.2) →
          res.usedWeights = availableWeights dfGoals (dictUpdate [("Goal", 1)] [])
          ∧ ∀ s ∈ res.scores, s = 0) :=
  ⟨by with_unfolding_all decide, by with_unfolding_all decide,
    c6_weight_normalization dfGoals [("Goal", 1)] []
      (by with_unfolding_all decide) (by with_unfolding_all decide)⟩

/-- C8: for every player of the population, the per-player contribution
breakdown computed in isolation agrees term-for-term with the full
population pass: same weights, same population min/max baseline,
`weighted_contribution = normalized_score * weight`, and the contributions
sum to the player's composite score. -/
theorem c8_contributions_match_population_pass
    (df : DataFrame) (w add : List (String × ℚ)) (res : ScoreResult)
    (h : calculate_category_score df w add = Except.ok res)
    (i : ℕ) (hi : i < df.rows.length) :
    (get_metric_contributions df w add (df.rows.getD i default)).map
        (fun q => (q.1, q.2.weight)) = res.usedWeights
    ∧ (∀ q ∈ get_metric_contributions df w add (df.rows.getD i default),
        q.2.raw_value = rowVal (df.rows.getD i default) q.1
        ∧ q.2.normalized_score
            = normalizeValue (q.1 ∈ negative_metrics)
                (listMin (colValues df q.1)) (listMax (colValues df q.1))
                (rowVal (df.rows.getD i default) q.1)
        ∧ q.2.weighted_contribution = q.2.normalized_score * q.2.weight)
    ∧ ((get_metric_contributions df w add (df.rows.getD i default)).map
        (fun q => q.2.weighted_contribution)).sum = res.scores.getD i 0 := by
  obtain ⟨hscores, _, hweights⟩ := calc_ok_parts h
  have hcols : ∀ p ∈ normWeights (availableWeights df (dictUpdate w add)),
      p.1 ∈ df.columns := fun p hp => mem_columns_of_mem_normWeights hp
  refine ⟨?_, ?_, ?_⟩
  · rw [hweights]
    unfold get_metric_contributions
    exact contribs_keys_weights df (df.rows.getD i default) _ hcols
  · intro q hq
    unfold get_metric_contributions at hq
    obtain ⟨p, hp, hpq⟩ := List.mem_filterMap.mp hq
    rw [contribEntry_of_mem_col (hcols p hp)] at hpq
    cases hpq
    exact ⟨rfl, rfl, rfl⟩
  · rw [hscores, getD_map_of_lt _ _ _ _ default hi]
    unfold get_metric_contributions
    exact contribs_sum_eq_rowScore df (df.rows.getD i default) _ hcols

/-- C8 (witness): the breakdown of the first player of the Goal population
agrees with the population pass there. -/
theorem c8_witness :
    ∃ res, calculate_category_score dfGoals [("Goal", 1)] [] = Except.ok res
      ∧ ((get_metric_contributions dfGoals [("Goal", 1)] []
            (dfGoals.rows.getD 0 default)).map
          (fun q => (q.1, q.2.weight)) = res.usedWeights
        ∧ (∀ q ∈ get_metric_contributions dfGoals [("Goal", 1)] []
              (dfGoals.rows.getD 0 default),
            q.2.raw_value = rowVal (dfGoals.rows.getD 0 default) q.1
            ∧ q.2.normalized_score
                = normalizeValue (q.1 ∈ negative_metrics)
                    (listMin (colValues dfGoals q.1)) (listMax (colValues dfGoals q.1))
                    (rowVal (dfGoals.rows.getD 0 default) q.1)
            ∧ q.2.weighted_contribution = q.2.normalized_score * q.2.weight)
        ∧ ((get_metric_contributions dfGoals [("Goal", 1)] []
              (dfGoals.rows.getD 0 default)).map
            (fun q => q.2.weighted_contribution)).sum = res.scores.getD 0 0) := by
  obtain ⟨res, hres⟩ : ∃ res,
      calculate_category_score dfGoals [("Goal", 1)] [] = Except.ok res :=
    ⟨_, rfl⟩
  exact ⟨res, hres,
    c8_contributions_match_population_pass dfGoals [("Goal", 1)] [] res hres 0
      (by with_unfolding_all decide)⟩

/-- C2 (counterexample): a roster player whose matched statistics row holds
the non-numeric noise `N/A` in its `Goal` cell gets that string stored
verbatim in the merged record — not the numeric 0 the claim requires for
every unparseable cell; moreover, against an empty statistics pool (or with
an empty roster) the merge refuses to run and produces no records at all,
so the claim's "every statistics pool" quantification also fails. -/
theorem c2_counterexample :
    (combine_data [c2player] c2pool).map
        (fun out => out.1.map (fun row => alookup row.stats "Goal"))
      = some [some (Cell.strVal "N/A")]
    ∧ Cell.strVal "N/A" ≠ Cell.intVal 0
    ∧ combine_data [c2player] [] = none
    ∧ combine_data [] c2pool = none := by
  refine ⟨by decide, by decide, by decide, by decide⟩

/-- C2 (amended): whenever the merge runs (both inputs non-empty), it
yields exactly one record per roster player in roster input order, and
every fixed metric column is present on every record; the cell of player
`i` at column `col` is exactly the int 0 when the player is unmatched or
the matched source row's cell is empty or missing, and otherwise it is the
matched source row's cell text verbatim, stored as a string; when no roster
player matches any statistics, every metric of every record is exactly 0
and the summary reports zero matches of either kind. -/
theorem c2_merge_shape (players : List RosterPlayer)
    (pool : List (String × CsvRow)) (out : List OutRow × MatchSummary)
    (h : combine_data players pool = some out) :
    out.1.length = players.length
    ∧ out.1.map OutRow.name = players.map RosterPlayer.name
    ∧ out.1.map OutRow.team = players.map RosterPlayer.team_name
    ∧ (∀ i, i < players.length → ∀ col ∈ stat_columns,
        (statsForRow (players.getD i default) pool = none →
          alookup (out.1.getD i default).stats col = some (Cell.intVal 0))
        ∧ ∀ s, statsForRow (players.getD i default) pool = some s →
            (getCell s col "" = "" →
              alookup (out.1.getD i default).stats col
                = some (Cell.intVal 0))
            ∧ (getCell s col "" ≠ "" →
              alookup (out.1.getD i default).stats col
                = some (Cell.strVal (getCell s col ""))))
    ∧ ((∀ p ∈ players, (find_player_stats p pool).1 = none) →
        (∀ row ∈ out.1, ∀ col ∈ stat_columns,
          alookup row.stats col = some (Cell.intVal 0))
        ∧ out.2.matched = 0 ∧ out.2.team_validated = 0 ∧ out.2.non_team = 0) := by
  unfold combine_data at h
  split at h
  · exact absurd h (by simp)
  · cases h
    refine ⟨by simp, ?_, ?_, ?_, ?_⟩
    · rw [List.map_map]
      rfl
    · rw [List.map_map]
      rfl
    · intro i hi col hcol
      have hrow : (players.map (mkOutRow pool)).getD i default
          = mkOutRow pool (players.getD i default) :=
        getD_map_of_lt (mkOutRow pool) players i default default hi
      rw [hrow]
      have hstats : (mkOutRow pool (players.getD i default)).stats
          = stat_columns.map (fun col =>
              (col, mkCell (statsForRow (players.getD i default) pool) col)) :=
        rfl
      constructor
      · intro hsnone
        rw [hstats, alookup_map_self _ stat_columns col hcol, hsnone]
        rfl
      · intro s hs
        constructor
        · intro hv
          rw [hstats, alookup_map_self _ stat_columns col hcol, hs]
          unfold mkCell
          simp only []
          rw [if_pos hv]
        · intro hv
          rw [hstats, alookup_map_self _ stat_columns col hcol, hs]
          unfold mkCell
          simp only []
          rw [if_neg hv]
    · intro hnone
      have hmz : ∀ p ∈ players, statsForRow p pool = none :=
        fun p hp => statsForRow_of_unmatched (hnone p hp)
      refine ⟨?_, ?_, ?_, ?_⟩
      · intro row hrow col hcol
        simp only [List.mem_map] at hrow
        obtain ⟨p, hp, hrow⟩ := hrow
        rw [← hrow]
        show alookup (stat_columns.map
          (fun col => (col, mkCell (statsForRow p pool) col))) col = _
        rw [alookup_map_self _ stat_columns col hcol, hmz p hp]
        rfl
      · show players.countP (fun p => isMatched p pool) = 0
        rw [List.countP_eq_zero]
        intro p hp
        simp [isMatched, hmz p hp]
      · show players.countP (fun p => isTeamValidated p pool) = 0
        rw [List.countP_eq_zero]
        intro p hp
        simp [isTeamValidated, isMatched, hmz p hp]
      · show players.countP
            (fun p => isMatched p pool
              && !strIn "team" (find_player_stats p pool).2) = 0
        rw [List.countP_eq_zero]
        intro p hp
        simp [isMatched, hmz p hp]

/-- C2 (witness): merging one roster player against a pool that matches
nobody yields one record, in order, with every metric cell characterized by
its (absent) source cell, and the all-unmatched conclusions hold. -/
theorem c2_witness :
    ∃ out, combine_data [c2player] c2poolMiss = some out
      ∧ (out.1.length = [c2player].length
        ∧ out.1.map OutRow.name = [c2player].map RosterPlayer.name
        ∧ out.1.map OutRow.team = [c2player].map RosterPlayer.team_name
        ∧ (∀ i, i < [c2player].length → ∀ col ∈ stat_columns,
            (statsForRow ([c2player].getD i default) c2poolMiss = none →
              alookup (out.1.getD i default).stats col
                = some (Cell.intVal 0))
            ∧ ∀ s, statsForRow ([c2player].getD i default) c2poolMiss
                = some s →
                (getCell s col "" = "" →
                  alookup (out.1.getD i default).stats col
                    = some (Cell.intVal 0))
                ∧ (getCell s col "" ≠ "" →
                  alookup (out.1.getD i default).stats col
                    = some (Cell.strVal (getCell s col ""))))
        ∧ ((∀ p ∈ [c2player], (find_player_stats p c2poolMiss).1 = none) →
            (∀ row ∈ out.1, ∀ col ∈ stat_columns,
              alookup row.stats col = some (Cell.intVal 0))
            ∧ out.2.matched = 0 ∧ out.2.team_validated = 0
            ∧ out.2.non_team = 0)) := by
  obtain ⟨out, hout⟩ : ∃ out, combine_data [c2player] c2poolMiss = some out :=
    ⟨_, rfl⟩
  exact ⟨out, hout, c2_merge_shape [c2player] c2poolMiss out hout⟩

/-- C3 (counterexample): two candidates on the target's team whose scraped
names both clean to the target's cleaned fullName: the clean-name scan
returns whichever candidate the enumeration order presents first, so
permuting the pool changes the returned record. -/
theorem c3_counterexample :
    List.Perm c3poolAB c3poolBA
    ∧ (find_player_stats c3tgt c3poolAB).1 = some c3rowA
    ∧ (find_player_stats c3tgt c3poolBA).1 = some c3rowB
    ∧ c3rowA ≠ c3rowB := by
  refine ⟨by decide, by decide, by decide, by decide⟩

/-- C3 (amended): when resolution succeeds by one of the two exact
dict-lookup strategies and the pool's keys are distinct (as
`load_player_stats` produces), permuting the candidate pool changes neither
the returned record nor the tier; the clean-name strategy, by contrast,
returns the first satisfying candidate in enumeration order, so
permutations can change its result. -/
theorem c3_exact_strategies_order_independent
    (p : RosterPlayer) (pool1 pool2 : List (String × CsvRow))
    (hperm : pool1.Perm pool2) (hnd : (pool1.map Prod.fst).Nodup)
    (s : CsvRow) (t : String)
    (ht : t = "exact_fullname_team" ∨ t = "exact_name_team")
    (h : find_player_stats p pool1 = (some s, t)) :
    find_player_stats p pool2 = (some s, t) := by
  have he : ∀ key, tryExact pool2 key p.team_name
      = tryExact pool1 key p.team_name := by
    intro key
    unfold tryExact
    rw [alookup_perm hperm hnd key]
  unfold find_player_stats at h ⊢
  rw [he p.fullName]
  cases h1 : tryExact pool1 p.fullName p.team_name with
  | some s1 =>
    rw [h1] at h
    exact h
  | none =>
    rw [h1] at h
    rw [he p.name]
    cases h2 : tryExact pool1 p.name p.team_name with
    | some s2 =>
      rw [h2] at h
      exact h
    | none =>
      rw [h2] at h
      cases h3 : cleanScan (clean_name p.fullName) (clean_name p.name)
          p.team_name pool1 with
      | some st =>
        obtain ⟨s3, t3⟩ := st
        rw [h3] at h
        simp only [Prod.mk.injEq, Option.some.injEq] at h
        rcases cleanScan_tier h3 with h4 | h4 <;> rcases ht with ht | ht <;>
          rw [h.2, ht] at h4 <;> exact absurd h4 (by decide)
      | none =>
        rw [h3] at h
        exact absurd h (by simp)

/-- C3 (witness): a pool resolved by the exact fullName strategy gives the
same record and tier after permutation. -/
theorem c3_witness :
    List.Perm c3exPool1 c3exPool2
    ∧ (c3exPool1.map Prod.fst).Nodup
    ∧ find_player_stats c2player c3exPool1
        = (some c2row, "exact_fullname_team")
    ∧ find_player_stats c2player c3exPool2
        = (some c2row, "exact_fullname_team") :=
  ⟨by decide, by decide, by decide,
    c3_exact_strategies_order_independent c2player c3exPool1 c3exPool2
      (by decide) (by decide) c2row "exact_fullname_team" (Or.inl rfl)
      (by decide)⟩

/-- C9: the loaded statistics pool has pairwise-distinct player-name keys
(at most one record per exact scraped name), and looking a name up yields
the LAST input row carrying that name — a later row silently replaces an
earlier one, so two same-named players can never both be candidates. -/
theorem c9_later_row_replaces_earlier (rows : List CsvRow) (name : String)
    (hname : name ≠ "") :
    ((load_player_stats rows).map Prod.fst).Nodup
    ∧ alookup (load_player_stats rows) name
        = (rows.filter
            (fun r => getCell r "Player Name" "" = name)).getLast? := by
  obtain ⟨h1, h2⟩ := load_foldl_invariant rows [] (by simp)
  refine ⟨h1, ?_⟩
  unfold load_player_stats
  rw [h2 name hname]
  cases (rows.filter (fun r => getCell r "Player Name" "" = name)).getLast? <;>
    rfl

/-- C9 (witness): two rows named `A` on different teams — the pool keeps
only the second. -/
theorem c9_witness :
    ("A" : String) ≠ ""
    ∧ (((load_player_stats [c9row1, c9row2]).map Prod.fst).Nodup
      ∧ alookup (load_player_stats [c9row1, c9row2]) "A"
          = ([c9row1, c9row2].filter
              (fun r => getCell r "Player Name" "" = "A")).getLast?)
    ∧ alookup (load_player_stats [c9row1, c9row2]) "A" = some c9row2 :=
  ⟨by decide, c9_later_row_replaces_earlier [c9row1, c9row2] "A" (by decide),
    by decide⟩

/-- C10 (counterexample): scraped name `CARL`, roster
`[{name: X, fullName: CA}, {name: Y, fullName: (empty)}]`: no exact
strategy matches and the second player's fullName is empty, yet the
resolver returns the FIRST player (whose fullName `CA` stands in
containment with `CARL`), not the first empty-fullName player. -/
theorem c10_counterexample :
    pyUpper (clean_text "CARL") = "CARL"
    ∧ pyUpper c10px.fullName ≠ "CARL" ∧ pyUpper c10px.name ≠ "CARL"
    ∧ pyUpper c10py.fullName ≠ "CARL" ∧ pyUpper c10py.name ≠ "CARL"
    ∧ c10py.fullName = ""
    ∧ match_player_by_fullname "CARL" [c10px, c10py] = some c10px
    ∧ some c10px ≠ some c10py := by
  refine ⟨by decide, by decide, by decide, by decide, by decide, by decide,
    by decide, by decide⟩

/-- C10 (amended): a roster player whose fullName is empty satisfies the
substring-containment test for every scraped name; hence when no player
matches the exact strategies and some player in the pool has an empty
fullName, the resolver returns the first player in roster order satisfying
the fullName-containment test — never no-match — which is at latest, but
not necessarily, the first empty-fullName player. -/
theorem c10_containment_never_misses (scraped : String)
    (players : List RosterPlayer) (p0 : RosterPlayer)
    (h1 : ∀ p ∈ players, pyUpper p.fullName ≠ pyUpper (clean_text scraped))
    (h2 : ∀ p ∈ players, pyUpper p.name ≠ pyUpper (clean_text scraped))
    (hp : p0 ∈ players) (hempty : p0.fullName = "") :
    match_player_by_fullname scraped players
      = players.find? (fullNameContainment (pyUpper (clean_text scraped)))
    ∧ (players.find?
        (fullNameContainment (pyUpper (clean_text scraped)))).isSome := by
  have hsome : (players.find?
      (fullNameContainment (pyUpper (clean_text scraped)))).isSome := by
    rw [List.find?_isSome]
    refine ⟨p0, hp, ?_⟩
    unfold fullNameContainment
    rw [hempty]
    show (strIn (pyUpper (clean_text scraped)) (pyUpper "")
      || strIn (pyUpper "") (pyUpper (clean_text scraped))) = true
    have hup : pyUpper "" = "" := rfl
    rw [hup, strIn_empty, Bool.or_true]
  have hf1 : players.find?
      (fun p => pyUpper p.fullName = pyUpper (clean_text scraped)) = none :=
    List.find?_eq_none.mpr (fun p hp2 => by simpa using h1 p hp2)
  have hf2 : players.find?
      (fun p => pyUpper p.name = pyUpper (clean_text scraped)) = none :=
    List.find?_eq_none.mpr (fun p hp2 => by simpa using h2 p hp2)
  constructor
  · unfold match_player_by_fullname
    simp only []
    rw [hf1]
    simp only []
    rw [hf2]
    simp only []
    cases hf3 : players.find?
        (fullNameContainment (pyUpper (clean_text scraped))) with
    | some q => rfl
    | none =>
      rw [hf3] at hsome
      exact absurd hsome (by simp)
  · exact hsome

/-- C10 (witness): with only the empty-fullName player in the pool the
resolver returns it through the containment pass. -/
theorem c10_witness :
    (∀ p ∈ [c10py], pyUpper p.fullName ≠ pyUpper (clean_text "CARL"))
    ∧ (∀ p ∈ [c10py], pyUpper p.name ≠ pyUpper (clean_text "CARL"))
    ∧ c10py.fullName = ""
    ∧ (match_player_by_fullname "CARL" [c10py]
        = [c10py].find? (fullNameContainment (pyUpper (clean_text "CARL")))
      ∧ ([c10py].find?
          (fullNameContainment (pyUpper (clean_text "CARL")))).isSome) :=
  ⟨by decide, by decide, by decide,
    c10_containment_never_misses "CARL" [c10py] c10py (by decide) (by decide)
      (by decide) (by decide)⟩

end ILeague
